import Mathlib

/-!
Shallow embedding of the go-acd node service (nodes.go, current version) and
the claims about it.  The HTTP transport is modelled as an oracle trace of
page outcomes consumed one entry per issued request; HTTP responses are
opaque numeric handles.  The unexported service back-pointer stored on each
decoded node is not modelled (it carries no observable data here).
-/

deriving instance DecidableEq for Except

/-- Errors produced by the client.  Each constructor mirrors one error site
of the Go source; transport and construction errors carry the message of the
underlying error value. -/
inductive Err where
  | urlParse (msg : String)
  | newRequest (msg : String)
  | transport (msg : String)
  | localFailure (msg : String)
  | noNodeFound (name : String)
  | tooManyNodes (name : String) (count : Nat)
  | notAFolder (name : String)
  | notAFile (name : String)
  deriving Repr, DecidableEq

/-- Error message, as produced by errors.New and fmt.Sprintf in the source. -/
def Err.message : Err → String
  | .urlParse m => m
  | .newRequest m => m
  | .transport m => m
  | .localFailure m => m
  | .noNodeFound name => "No node \x27" ++ name ++ "\x27 found"
  | .tooManyNodes name n => "Too many nodes \x27" ++ name ++ "\x27 found (" ++ toString n ++ ")"
  | .notAFolder name => "Node \x27" ++ name ++ "\x27 is not a folder"
  | .notAFile name => "Node \x27" ++ name ++ "\x27 is not a file"

/-- Optional content properties of a node (contentProperties.size). -/
structure NodeContentProperties where
  size : Option Nat
  deriving Repr, DecidableEq

/-- Node: a digital asset on the drive.  Pointer-typed JSON fields become
Option; the unexported service back-pointer is omitted. -/
structure Node where
  id : Option String
  name : Option String
  kind : Option String
  contentProperties : Option NodeContentProperties
  deriving Repr, DecidableEq

/-- File wraps a Node (Go: struct with an embedded Node pointer). -/
structure File where
  node : Node
  deriving Repr, DecidableEq

/-- Folder wraps a Node (Go: struct with an embedded Node pointer). -/
structure Folder where
  node : Node
  deriving Repr, DecidableEq

/-- Result of the Typed dispatch: a File view, a Folder view, or the plain
node itself when the kind is absent or unrecognized. -/
inductive TypedView where
  | file (f : File)
  | folder (f : Folder)
  | plain (n : Node)
  deriving Repr, DecidableEq

/-- Underlying node of a typed view. -/
def TypedView.underlying : TypedView → Node
  | .file f => f.node
  | .folder f => f.node
  | .plain n => n

/-- IsFile returns whether the node represents a file
(Kind non-nil and equal to FILE). -/
def Node.IsFile (n : Node) : Bool :=
  n.kind = some "FILE"

/-- IsFolder returns whether the node represents a folder
(Kind non-nil and equal to FOLDER). -/
def Node.IsFolder (n : Node) : Bool :=
  n.kind = some "FOLDER"

/-- Typed returns the Node typed as either File or Folder, or the node
itself otherwise. -/
def Node.Typed (n : Node) : TypedView :=
  if n.IsFile then .file ⟨n⟩
  else if n.IsFolder then .folder ⟨n⟩
  else .plain n

/-- NodeListOptions: filter, sorting and pagination options.  reachedEnd is
the unexported completion flag. -/
structure NodeListOptions where
  limit : Nat
  filters : String
  sort : String
  startToken : String
  reachedEnd : Bool
  deriving Repr, DecidableEq

/-- Zero value of NodeListOptions (Go: a fresh composite literal). -/
def NodeListOptions.zero : NodeListOptions :=
  ⟨0, "", "", "", false⟩

/-- Decoded list-response envelope.  data is an Option so that a nil slice
(absent data field) is distinguished from an empty one. -/
structure NodeListInternal where
  count : Option Nat
  nextToken : Option String
  data : Option (List Node)
  deriving Repr, DecidableEq

/-- One environment outcome for one listing attempt: the metadata request
construction fails, the HTTP call fails (with an optional response), or the
HTTP call succeeds with a decoded envelope. -/
inductive PageOutcome where
  | reqError (e : Err)
  | doError (resp : Option Nat) (e : Err)
  | okResp (resp : Nat) (body : NodeListInternal)
  deriving Repr, DecidableEq

/-- Query-string encoding of the url-tagged fields, in the sorted key order
produced by url.Values.Encode; zero-valued fields are omitted (omitempty).
Percent-escaping done by the external encoder is not modelled. -/
def queryEncode (o : NodeListOptions) : String :=
  let ps :=
    (if o.filters = "" then [] else [("filters", o.filters)]) ++
    (if o.limit = 0 then [] else [("limit", toString o.limit)]) ++
    (if o.sort = "" then [] else [("sort", o.sort)]) ++
    (if o.startToken = "" then [] else [("startToken", o.startToken)])
  String.intercalate "&" (ps.map (fun p => p.1 ++ "=" ++ p.2))

/-- URL produced by addOptions: unchanged for a nil options pointer or an
all-empty query, otherwise the path with the encoded query appended. -/
def requestUrl (url : String) (opts : Option NodeListOptions) : String :=
  match opts with
  | none => url
  | some o => if queryEncode o = "" then url else url ++ "?" ++ queryEncode o

/-- addOptions adds the options as URL query parameters to the path.  A nil
options pointer is detected by reflection and leaves the path unchanged.
url.Parse and query.Values never fail on the inputs this client builds, so
the error result is never produced here. -/
def addOptions (url : String) (opts : Option NodeListOptions) : Except Err String :=
  match opts with
  | none => .ok url
  | some o => .ok (if queryEncode o = "" then url else url ++ "?" ++ queryEncode o)

/-- Guard condition of listNodes: opts is non-nil and its completion flag is
set. -/
def optsReachedEnd (opts : Option NodeListOptions) : Bool :=
  match opts with
  | some o => o.reachedEnd
  | none => false

/-- In-place mutation of the options performed after a successful response:
a present continuation token is stored as the next start token, an absent
one sets the completion flag.  A nil options pointer is left untouched. -/
def updateOptions (opts : Option NodeListOptions) (tok : Option String) :
    Option NodeListOptions :=
  match opts with
  | none => none
  | some o =>
    match tok with
    | some t => some { o with startToken := t }
    | none => some { o with reachedEnd := true }

/-- Result of one listNodes call: the returned node slice (none models a nil
slice), the HTTP response, the error, the options value after the call, and
the remaining oracle trace. -/
structure ListResult where
  nodes : Option (List Node)
  resp : Option Nat
  error : Option Err
  opts : Option NodeListOptions
  trace : List PageOutcome
  deriving Repr, DecidableEq

/-- listNodes: one page fetch.  Returns immediately when the completion flag
is already set; otherwise builds the URL, constructs and issues the request
(consuming one oracle outcome), and on success stores the continuation
token or sets the completion flag on the options.  An exhausted oracle is
reported as a transport error. -/
def listNodes (trace : List PageOutcome) (url : String)
    (opts : Option NodeListOptions) : ListResult :=
  if optsReachedEnd opts then ⟨none, none, none, opts, trace⟩
  else
    match addOptions url opts with
    | .error e => ⟨none, none, some e, opts, trace⟩
    | .ok _ =>
      match trace with
      | [] => ⟨none, none, some (.transport "no response"), opts, []⟩
      | .reqError e :: rest => ⟨none, none, some e, opts, rest⟩
      | .doError ro e :: rest => ⟨none, ro, some e, opts, rest⟩
      | .okResp r body :: rest =>
        ⟨body.data, some r, none, updateOptions opts body.nextToken, rest⟩

/-- Result of listAllNodes: accumulated nodes, last response, error, final
options value and remaining oracle trace. -/
structure AllResult where
  nodes : List Node
  resp : Option Nat
  error : Option Err
  opts : Option NodeListOptions
  trace : List PageOutcome
  deriving Repr, DecidableEq

/-- Loop body of listAllNodes: repeatedly call listNodes, returning the
accumulated result on error and stopping on a nil node slice.  The empty
trace arm inside the success case is unreachable (listNodes on an empty
trace always errors); recursion is structural on the trace. -/
def listAllLoop : List PageOutcome → String → Option NodeListOptions →
    List Node → AllResult
  | trace, url, opts, acc =>
    let r := listNodes trace url opts
    match r.error with
    | some e => ⟨acc, r.resp, some e, r.opts, r.trace⟩
    | none =>
      match r.nodes with
      | none => ⟨acc, none, none, r.opts, r.trace⟩
      | some ns =>
        match trace with
        | [] => ⟨acc, none, none, r.opts, r.trace⟩
        | _ :: rest => listAllLoop rest url r.opts (acc ++ ns)

/-- listAllNodes: substitutes a fresh zero-valued options record for a nil
pointer (the options carry the loop state), then accumulates pages. -/
def listAllNodes (trace : List PageOutcome) (url : String)
    (opts : Option NodeListOptions) : AllResult :=
  listAllLoop trace url (some (opts.getD NodeListOptions.zero)) []

/-- Filter expression built by GetNode, as in the source format string
interpolating the folder id and the child name. -/
def getNodeFilter (fid name : String) : String :=
  "parents:\"" ++ fid ++ "\" AND name:\"" ++ name ++ "\""

/-- Modelled from the spec wording of the folder filter expression:
parents-clause with the quoted folder id, joined by AND to a name-clause
with the quoted name.  Kept separate from getNodeFilter so the source
format can be compared with the specified shape. -/
def specNameFilter (folderId name : String) : String :=
  "parents:" ++ ("\"" ++ folderId ++ "\"") ++ " AND " ++
    ("name:" ++ ("\"" ++ name ++ "\""))

/-- Result of a single-node call: the node or the error, the HTTP response,
and the remaining oracle trace. -/
structure NodeResult where
  result : Except Err Node
  resp : Option Nat
  trace : List PageOutcome
  deriving Repr, DecidableEq

/-- Result of GetFolder. -/
structure FolderResult where
  result : Except Err Folder
  resp : Option Nat
  trace : List PageOutcome
  deriving Repr, DecidableEq

/-- Result of GetFile. -/
structure FileResult where
  result : Except Err File
  resp : Option Nat
  trace : List PageOutcome
  deriving Repr, DecidableEq

/-- GetNode: one listing call on the nodes path with a name-lookup filter;
zero results is a not-found error, more than one is a too-many error,
exactly one is returned.  A nil folder id would make the Go code fault on
the dereference; the embedding substitutes the empty string, which no
theorem relies on. -/
def Folder.GetNode (f : Folder) (trace : List PageOutcome) (name : String) :
    NodeResult :=
  let filter := getNodeFilter (f.node.id.getD "") name
  let opts : NodeListOptions := { NodeListOptions.zero with filters := filter }
  let r := listNodes trace "nodes" (some opts)
  match r.error with
  | some e => ⟨.error e, r.resp, r.trace⟩
  | none =>
    match r.nodes.getD [] with
    | [] => ⟨.error (.noNodeFound name), r.resp, r.trace⟩
    | [n] => ⟨.ok n, r.resp, r.trace⟩
    | n1 :: n2 :: rest =>
      ⟨.error (.tooManyNodes name (n1 :: n2 :: rest).length), r.resp, r.trace⟩

/-- GetFolder: GetNode then a type assertion on the typed view; a node that
is not a folder view yields the not-a-folder error. -/
def Folder.GetFolder (f : Folder) (trace : List PageOutcome) (name : String) :
    FolderResult :=
  let r := f.GetNode trace name
  match r.result with
  | .error e => ⟨.error e, r.resp, r.trace⟩
  | .ok n =>
    match n.Typed with
    | .folder fo => ⟨.ok fo, r.resp, r.trace⟩
    | _ => ⟨.error (.notAFolder name), r.resp, r.trace⟩

/-- GetFile: GetNode then a type assertion on the typed view; a node that is
not a file view yields the not-a-file error. -/
def Folder.GetFile (f : Folder) (trace : List PageOutcome) (name : String) :
    FileResult :=
  let r := f.GetNode trace name
  match r.result with
  | .error e => ⟨.error e, r.resp, r.trace⟩
  | .ok n =>
    match n.Typed with
    | .file fl => ⟨.ok fl, r.resp, r.trace⟩
    | _ => ⟨.error (.notAFile name), r.resp, r.trace⟩

/-- Result of WalkNodes: the deepest node reached (on failure, the node of
the last successfully resolved folder), the response of every attempted
step, the error, and the remaining oracle trace. -/
structure WalkResult where
  node : Node
  resps : List (Option Nat)
  error : Option Err
  trace : List PageOutcome
  deriving Repr, DecidableEq

/-- Loop of WalkNodes: every segment except the last resolves through
GetFolder, the last through GetNode; the response of each attempted call is
appended before the error check, and on error the node of the folder the
failing call was made from is returned. -/
def walkLoop : Folder → List PageOutcome → List (Option Nat) →
    List String → String → WalkResult
  | fp, trace, acc, [], last =>
    let r := fp.GetNode trace last
    match r.result with
    | .error e => ⟨fp.node, acc ++ [r.resp], some e, r.trace⟩
    | .ok n => ⟨n, acc ++ [r.resp], none, r.trace⟩
  | fp, trace, acc, name :: rest, last =>
    let r := fp.GetFolder trace name
    match r.result with
    | .error e => ⟨fp.node, acc ++ [r.resp], some e, r.trace⟩
    | .ok fn => walkLoop fn r.trace (acc ++ [r.resp]) rest last

/-- WalkNodes: an empty name list returns the starting folder node at once
with no responses; otherwise the names split into all-but-last and last and
the loop runs. -/
def Folder.WalkNodes (f : Folder) (trace : List PageOutcome)
    (names : List String) : WalkResult :=
  match names.getLast? with
  | none => ⟨f.node, [], none, trace⟩
  | some last => walkLoop f trace [] names.dropLast last

/-- Outcome of the multipart producer goroutine of Upload: the first failing
step sends its error on the completion channel; if all steps succeed the
result of closing the writer is sent. -/
inductive ProducerOutcome where
  | metadataErr (e : Err)
  | formFileErr (e : Err)
  | copyErr (e : Err)
  | closeResult (r : Option Err)
  deriving Repr, DecidableEq

/-- Value the producer sends on the single-slot completion channel. -/
def producerSent : ProducerOutcome → Option Err
  | .metadataErr e => some e
  | .formFileErr e => some e
  | .copyErr e => some e
  | .closeResult r => r

/-- Result of Upload. -/
structure UploadResult where
  file : Option File
  resp : Option Nat
  error : Option Err
  deriving Repr, DecidableEq

/-- Upload, sequentialized: open the local file, build the content request,
issue the HTTP call, and only then receive the producer outcome from the
completion channel; a producer error is returned even after HTTP success.
openErr and reqErr are the possible failures of os.Open and of the request
constructor, and doOutcome is the HTTP-call outcome carrying the decoded
upload placeholder node on success. -/
def Folder.Upload (_f : Folder) (openErr : Option Err) (reqErr : Option Err)
    (doOutcome : Except Err (Nat × Node)) (producer : ProducerOutcome) :
    UploadResult :=
  match openErr with
  | some e => ⟨none, none, some e⟩
  | none =>
    match reqErr with
    | some e => ⟨none, none, some e⟩
    | none =>
      match doOutcome with
      | .error e => ⟨none, none, some e⟩
      | .ok (r, n) =>
        match producerSent producer with
        | some e => ⟨none, none, some e⟩
        | none => ⟨some ⟨n⟩, some r, none⟩

/-- Run of successful listing responses each carrying a continuation token
and a present data slice, paired with the data of each page. -/
inductive TokenPages : List PageOutcome → List (List Node) → Prop where
  | nil : TokenPages [] []
  | cons : ∀ (r : Nat) (c : Option Nat) (t : String) (ns : List Node)
      (rest : List PageOutcome) (pss : List (List Node)),
      TokenPages rest pss →
      TokenPages (.okResp r ⟨c, some t, some ns⟩ :: rest) (ns :: pss)

/-- Successful folder-resolution chain: starting from the folder with the
given oracle, the listed names resolve in order through GetFolder, ending
at the final folder with the final oracle. -/
inductive ResolvesTo : List PageOutcome → Folder → List String →
    List PageOutcome → Folder → Prop where
  | nil : ∀ tr fp, ResolvesTo tr fp [] tr fp
  | cons : ∀ tr fp name rest fn tr' g,
      (fp.GetFolder tr name).result = .ok fn →
      ResolvesTo (fp.GetFolder tr name).trace fn rest tr' g →
      ResolvesTo tr fp (name :: rest) tr' g

/-- Demo node of folder kind named a, used by the concrete witnesses. -/
def demoFolderA : Node :=
  ⟨some "idA", some "a", some "FOLDER", none⟩

/-- Demo node of folder kind named b, used by the concrete witnesses. -/
def demoFolderB : Node :=
  ⟨some "idB", some "b", some "FOLDER", none⟩

/-- Demo starting folder, used by the concrete witnesses. -/
def demoRoot : Folder :=
  ⟨⟨some "idRoot", some "root", some "FOLDER", none⟩⟩

/-- Demo oracle for the walk scenario: a and b resolve as folders and the
final lookup returns no match. -/
def demoWalkTrace : List PageOutcome :=
  [.okResp 1 ⟨none, none, some [demoFolderA]⟩,
   .okResp 2 ⟨none, none, some [demoFolderB]⟩,
   .okResp 3 ⟨none, none, some []⟩]

theorem addOptions_eq (url : String) (opts : Option NodeListOptions) :
    addOptions url opts = .ok (requestUrl url opts) := by
  cases opts <;> rfl

/-- Claim C6: the typed dispatch is total on nodes: kind FILE yields the
File view, kind FOLDER yields the Folder view, any other or absent kind
yields the generic node unchanged, and in every case the view carries the
very node that was classified. -/
theorem c6_typed_total (n : Node) :
    (n.kind = some "FILE" → n.Typed = .file ⟨n⟩) ∧
    (n.kind = some "FOLDER" → n.Typed = .folder ⟨n⟩) ∧
    (n.kind ≠ some "FILE" → n.kind ≠ some "FOLDER" → n.Typed = .plain n) ∧
    n.Typed.underlying = n := by
  refine ⟨fun h => ?_, fun h => ?_, fun h1 h2 => ?_, ?_⟩
  · simp [Node.Typed, Node.IsFile, h]
  · simp [Node.Typed, Node.IsFile, Node.IsFolder, h]
  · simp [Node.Typed, Node.IsFile, Node.IsFolder, h1, h2]
  · unfold Node.Typed
    split
    · rfl
    · split
      · rfl
      · rfl

/-- Witness for C6 at concrete nodes of each kind. -/
theorem c6_typed_total_witness :
    let nf : Node := ⟨some "i1", some "x", some "FILE", none⟩
    let nd : Node := ⟨some "i2", some "y", some "FOLDER", none⟩
    let nu : Node := ⟨some "i3", some "z", some "WHATEVER", none⟩
    nf.Typed = .file ⟨nf⟩ ∧ nd.Typed = .folder ⟨nd⟩ ∧ nu.Typed = .plain nu :=
  ⟨(c6_typed_total _).1 rfl, (c6_typed_total _).2.1 rfl,
   (c6_typed_total _).2.2.1 (by decide) (by decide)⟩

/-- Claim C8: the filter expression GetNode builds for a name lookup is
exactly the parents-clause with the quoted folder id joined by AND to the
name-clause with the quoted name. -/
theorem c8_name_filter (fid name : String) :
    getNodeFilter fid name = specNameFilter fid name := by
  unfold getNodeFilter specNameFilter
  apply String.ext
  simp [String.data_append]

/-- Claim C10: nil-options safety.  listAllNodes with an absent options
value behaves as with a fresh zero-valued options record; listNodes with an
absent options value does not fault, skips the completion-flag branch, and
issues the request (consuming the outcome) with the path unchanged by
addOptions, hence with no query parameters. -/
theorem c10_nil_options :
    (∀ trace url, listAllNodes trace url none =
       listAllNodes trace url (some NodeListOptions.zero)) ∧
    (∀ url r body rest,
       listNodes (.okResp r body :: rest) url none =
         ⟨body.data, some r, none, none, rest⟩) ∧
    (∀ url, addOptions url none = .ok url) := by
  refine ⟨fun trace url => rfl, fun url r body rest => ?_, fun url => rfl⟩
  simp [listNodes, optsReachedEnd, addOptions, updateOptions]

/-- Claim C1: once the completion flag is set on an options value, a
listNodes call returns an empty result with the oracle untouched and the
options unchanged, a listAllNodes call returns an empty accumulation the
same way, and no listing operation ever clears the flag. -/
theorem c1_completion_terminal (trace : List PageOutcome) (url : String)
    (o : NodeListOptions) (h : o.reachedEnd = true) :
    listNodes trace url (some o) = ⟨none, none, none, some o, trace⟩ ∧
    listAllNodes trace url (some o) = ⟨[], none, none, some o, trace⟩ ∧
    (∀ o', (listNodes trace url (some o)).opts = some o' → o'.reachedEnd = true) ∧
    (∀ o', (listAllNodes trace url (some o)).opts = some o' → o'.reachedEnd = true) := by
  have h1 : listNodes trace url (some o) = ⟨none, none, none, some o, trace⟩ := by
    simp [listNodes, optsReachedEnd, h]
  have h2 : listAllNodes trace url (some o) = ⟨[], none, none, some o, trace⟩ := by
    show listAllLoop trace url (some o) [] = _
    rw [listAllLoop]
    simp [h1]
  refine ⟨h1, h2, fun o' ho' => ?_, fun o' ho' => ?_⟩
  · rw [h1] at ho'
    cases ho'
    exact h
  · rw [h2] at ho'
    cases ho'
    exact h

/-- Witness for C1 at a concrete completed options value. -/
theorem c1_completion_terminal_witness :
    listNodes [PageOutcome.reqError (Err.newRequest "x")] "nodes"
        (some ⟨0, "", "", "tok", true⟩) =
      ⟨none, none, none, some ⟨0, "", "", "tok", true⟩,
        [PageOutcome.reqError (Err.newRequest "x")]⟩ ∧
    listAllNodes [PageOutcome.reqError (Err.newRequest "x")] "nodes"
        (some ⟨0, "", "", "tok", true⟩) =
      ⟨[], none, none, some ⟨0, "", "", "tok", true⟩,
        [PageOutcome.reqError (Err.newRequest "x")]⟩ :=
  ⟨(c1_completion_terminal _ _ _ rfl).1, (c1_completion_terminal _ _ _ rfl).2.1⟩

/-- Claim C2: whenever listNodes reports an error the caller-supplied
options value is returned unmodified and no nodes are produced; a request
construction failure and a transport or decode failure at the head of the
oracle each propagate their error unchanged with the options untouched. -/
theorem c2_error_preserves_options :
    (∀ trace url opts e, (listNodes trace url opts).error = some e →
       (listNodes trace url opts).opts = opts ∧
       (listNodes trace url opts).nodes = none) ∧
    (∀ url opts e rest, optsReachedEnd opts = false →
       listNodes (.reqError e :: rest) url opts = ⟨none, none, some e, opts, rest⟩) ∧
    (∀ url opts ro e rest, optsReachedEnd opts = false →
       listNodes (.doError ro e :: rest) url opts = ⟨none, ro, some e, opts, rest⟩) := by
  refine ⟨fun trace url opts e h => ?_, fun url opts e rest hf => ?_,
    fun url opts ro e rest hf => ?_⟩
  · by_cases hf : optsReachedEnd opts = true
    · simp [listNodes, hf] at h
    · simp only [Bool.not_eq_true] at hf
      cases trace with
      | nil => simp [listNodes, hf, addOptions_eq]
      | cons o rest =>
        cases o with
        | reqError e' => simp [listNodes, hf, addOptions_eq]
        | doError ro e' => simp [listNodes, hf, addOptions_eq]
        | okResp r body => simp [listNodes, hf, addOptions_eq] at h
  · simp [listNodes, hf, addOptions_eq]
  · simp [listNodes, hf, addOptions_eq]

/-- Witness for C2 at a concrete transport failure. -/
theorem c2_error_preserves_options_witness :
    listNodes [PageOutcome.doError (some 7) (Err.transport "boom")] "nodes"
        (some ⟨2, "f", "s", "t", false⟩) =
      ⟨none, some 7, some (Err.transport "boom"), some ⟨2, "f", "s", "t", false⟩, []⟩ :=
  c2_error_preserves_options.2.2 "nodes" (some ⟨2, "f", "s", "t", false⟩)
    (some 7) (Err.transport "boom") [] rfl

/-- Claim C4: GetNode consumes exactly one oracle outcome and, on a
successful listing response, zero returned nodes give the not-found error,
two or more give the too-many error with the count, and exactly one is
returned as the result. -/
theorem c4_getNode_single_call (f : Folder) (name : String) (r0 : Nat)
    (c : Option Nat) (tk : Option String) (d : List Node)
    (rest : List PageOutcome) :
    (d = [] →
       f.GetNode (.okResp r0 ⟨c, tk, some d⟩ :: rest) name =
         ⟨.error (.noNodeFound name), some r0, rest⟩) ∧
    (∀ n, d = [n] →
       f.GetNode (.okResp r0 ⟨c, tk, some d⟩ :: rest) name =
         ⟨.ok n, some r0, rest⟩) ∧
    (2 ≤ d.length →
       f.GetNode (.okResp r0 ⟨c, tk, some d⟩ :: rest) name =
         ⟨.error (.tooManyNodes name d.length), some r0, rest⟩) := by
  refine ⟨fun h => ?_, fun n h => ?_, fun h => ?_⟩
  · subst h
    simp [Folder.GetNode, listNodes, optsReachedEnd, NodeListOptions.zero,
      addOptions_eq, updateOptions]
  · subst h
    simp [Folder.GetNode, listNodes, optsReachedEnd, NodeListOptions.zero,
      addOptions_eq, updateOptions]
  · cases d with
    | nil => simp at h
    | cons n1 t =>
      cases t with
      | nil => simp at h
      | cons n2 t2 =>
        simp [Folder.GetNode, listNodes, optsReachedEnd, NodeListOptions.zero,
          addOptions_eq, updateOptions]

/-- Witness for C4: zero, one and two results at concrete inputs. -/
theorem c4_getNode_single_call_witness :
    (Folder.mk ⟨some "fid", none, some "FOLDER", none⟩).GetNode
        [.okResp 1 ⟨some 0, none, some []⟩] "a" =
      ⟨.error (.noNodeFound "a"), some 1, []⟩ ∧
    (Folder.mk ⟨some "fid", none, some "FOLDER", none⟩).GetNode
        [.okResp 1 ⟨some 1, none, some [⟨some "x", some "a", some "FILE", none⟩]⟩] "a" =
      ⟨.ok ⟨some "x", some "a", some "FILE", none⟩, some 1, []⟩ ∧
    (Folder.mk ⟨some "fid", none, some "FOLDER", none⟩).GetNode
        [.okResp 1 ⟨some 2, none,
           some [⟨some "x", some "a", some "FILE", none⟩,
                 ⟨some "y", some "a", some "FILE", none⟩]⟩] "a" =
      ⟨.error (.tooManyNodes "a" 2), some 1, []⟩ :=
  ⟨(c4_getNode_single_call _ "a" 1 (some 0) none [] []).1 rfl,
   (c4_getNode_single_call _ "a" 1 (some 1) none _ []).2.1 _ rfl,
   (c4_getNode_single_call _ "a" 1 (some 2) none _ []).2.2 (by decide)⟩

/-- Claim C7: GetFolder and GetFile first run GetNode and propagate its
error unchanged with the same response and oracle state; when GetNode
succeeds but the typed view of the node is not the expected variant they
fail with the wrong-kind error naming the child, consuming nothing further;
when the view matches they return it. -/
theorem c7_typed_lookup (f : Folder) (trace : List PageOutcome) (name : String) :
    (∀ e, (f.GetNode trace name).result = .error e →
       f.GetFolder trace name =
         ⟨.error e, (f.GetNode trace name).resp, (f.GetNode trace name).trace⟩ ∧
       f.GetFile trace name =
         ⟨.error e, (f.GetNode trace name).resp, (f.GetNode trace name).trace⟩) ∧
    (∀ n, (f.GetNode trace name).result = .ok n →
       ((∀ fo, n.Typed ≠ .folder fo) →
          f.GetFolder trace name =
            ⟨.error (.notAFolder name), (f.GetNode trace name).resp,
              (f.GetNode trace name).trace⟩) ∧
       (∀ fo, n.Typed = .folder fo →
          f.GetFolder trace name =
            ⟨.ok fo, (f.GetNode trace name).resp, (f.GetNode trace name).trace⟩) ∧
       ((∀ fl, n.Typed ≠ .file fl) →
          f.GetFile trace name =
            ⟨.error (.notAFile name), (f.GetNode trace name).resp,
              (f.GetNode trace name).trace⟩) ∧
       (∀ fl, n.Typed = .file fl →
          f.GetFile trace name =
            ⟨.ok fl, (f.GetNode trace name).resp, (f.GetNode trace name).trace⟩)) := by
  constructor
  · intro e h
    constructor
    · simp [Folder.GetFolder, h]
    · simp [Folder.GetFile, h]
  · intro n h
    refine ⟨fun hne => ?_, fun fo hfo => ?_, fun hne => ?_, fun fl hfl => ?_⟩
    · cases ht : n.Typed with
      | folder fo => exact absurd ht (hne fo)
      | file fl => simp [Folder.GetFolder, h, ht]
      | plain m => simp [Folder.GetFolder, h, ht]
    · simp [Folder.GetFolder, h, hfo]
    · cases ht : n.Typed with
      | file fl => exact absurd ht (hne fl)
      | folder fo => simp [Folder.GetFile, h, ht]
      | plain m => simp [Folder.GetFile, h, ht]
    · simp [Folder.GetFile, h, hfl]

/-- Witness for C7: a child of file kind makes GetFolder fail with the
wrong-kind error and makes GetFile return the file view. -/
theorem c7_typed_lookup_witness :
    (Folder.mk ⟨some "fid", none, some "FOLDER", none⟩).GetFolder
        [.okResp 1 ⟨some 1, none, some [⟨some "x", some "a", some "FILE", none⟩]⟩] "a" =
      ⟨.error (.notAFolder "a"), some 1, []⟩ ∧
    (Folder.mk ⟨some "fid", none, some "FOLDER", none⟩).GetFile
        [.okResp 1 ⟨some 1, none, some [⟨some "x", some "a", some "FILE", none⟩]⟩] "a" =
      ⟨.ok ⟨⟨some "x", some "a", some "FILE", none⟩⟩, some 1, []⟩ :=
  ⟨((c7_typed_lookup _ _ "a").2 ⟨some "x", some "a", some "FILE", none⟩
      (by decide)).1 (by intro fo h; cases h),
   ((c7_typed_lookup _ _ "a").2 ⟨some "x", some "a", some "FILE", none⟩
      (by decide)).2.2.2 ⟨⟨some "x", some "a", some "FILE", none⟩⟩ (by decide)⟩

/-- Claim C9: after a successful HTTP call Upload receives the producer
outcome from the single-slot completion channel, so a producer-side failure
of the metadata write, the form-file creation or the local copy is returned
even though the HTTP call succeeded; a clean producer lets the decoded file
through, and when the HTTP call itself fails the producer outcome plays no
part in the result. -/
theorem c9_upload_producer (f : Folder) (r : Nat) (n : Node)
    (producer : ProducerOutcome) :
    (∀ e, producerSent producer = some e →
       f.Upload none none (.ok (r, n)) producer = ⟨none, none, some e⟩) ∧
    (producerSent producer = none →
       f.Upload none none (.ok (r, n)) producer = ⟨some ⟨n⟩, some r, none⟩) ∧
    (∀ e p p', f.Upload none none (.error e) p = f.Upload none none (.error e) p') ∧
    (∀ e, producerSent (.metadataErr e) = some e ∧
          producerSent (.formFileErr e) = some e ∧
          producerSent (.copyErr e) = some e) := by
  refine ⟨fun e h => ?_, fun h => ?_, fun e p p' => ?_, fun e => ⟨rfl, rfl, rfl⟩⟩
  · simp [Folder.Upload, h]
  · simp [Folder.Upload, h]
  · rfl

/-- Witness for C9: a failed local copy surfaces after a successful HTTP
call. -/
theorem c9_upload_producer_witness :
    (Folder.mk ⟨some "fid", none, some "FOLDER", none⟩).Upload none none
        (.ok (4, ⟨some "new", some "up.bin", some "FILE", none⟩))
        (.copyErr (Err.localFailure "read failed")) =
      ⟨none, none, some (Err.localFailure "read failed")⟩ :=
  (c9_upload_producer _ 4 _ _).1 _ rfl

theorem listAllLoop_lastPage (url : String) (r : Nat) (c : Option Nat)
    (ns : List Node) (extra : List PageOutcome) (o : NodeListOptions)
    (acc : List Node) (ho : o.reachedEnd = false) :
    listAllLoop (.okResp r ⟨c, none, some ns⟩ :: extra) url (some o) acc =
      ⟨acc ++ ns, none, none, some { o with reachedEnd := true }, extra⟩ := by
  rw [listAllLoop]
  have hl : listNodes (PageOutcome.okResp r ⟨c, none, some ns⟩ :: extra) url (some o) =
      ⟨some ns, some r, none, some { o with reachedEnd := true }, extra⟩ := by
    simp [listNodes, optsReachedEnd, ho, addOptions_eq, updateOptions]
  simp only [hl]
  rw [listAllLoop]
  simp [listNodes, optsReachedEnd]

theorem listAllLoop_head_doError (url : String) (ro : Option Nat) (e : Err)
    (tail : List PageOutcome) (o : NodeListOptions) (acc : List Node)
    (ho : o.reachedEnd = false) :
    listAllLoop (.doError ro e :: tail) url (some o) acc =
      ⟨acc, ro, some e, some o, tail⟩ := by
  rw [listAllLoop]
  have hl : listNodes (PageOutcome.doError ro e :: tail) url (some o) =
      ⟨none, ro, some e, some o, tail⟩ := by
    simp [listNodes, optsReachedEnd, ho, addOptions_eq]
  simp only [hl]

theorem listAllLoop_head_reqError (url : String) (e : Err)
    (tail : List PageOutcome) (o : NodeListOptions) (acc : List Node)
    (ho : o.reachedEnd = false) :
    listAllLoop (.reqError e :: tail) url (some o) acc =
      ⟨acc, none, some e, some o, tail⟩ := by
  rw [listAllLoop]
  have hl : listNodes (PageOutcome.reqError e :: tail) url (some o) =
      ⟨none, none, some e, some o, tail⟩ := by
    simp [listNodes, optsReachedEnd, ho, addOptions_eq]
  simp only [hl]

theorem listAllLoop_tokenPages {trace : List PageOutcome}
    {pages : List (List Node)} (h : TokenPages trace pages) :
    ∀ url cont (o : NodeListOptions) acc, o.reachedEnd = false →
      ∃ o', o'.reachedEnd = false ∧
        listAllLoop (trace ++ cont) url (some o) acc =
          listAllLoop cont url (some o') (acc ++ pages.flatten) := by
  induction h with
  | nil =>
    intro url cont o acc ho
    exact ⟨o, ho, by simp⟩
  | cons r c t ns rest pss hrest ih =>
    intro url cont o acc ho
    obtain ⟨o', ho', heq⟩ := ih url cont { o with startToken := t } (acc ++ ns) ho
    refine ⟨o', ho', ?_⟩
    rw [List.cons_append, listAllLoop]
    have hl : listNodes (PageOutcome.okResp r ⟨c, some t, some ns⟩ :: (rest ++ cont))
        url (some o) =
        ⟨some ns, some r, none, some { o with startToken := t }, rest ++ cont⟩ := by
      simp [listNodes, optsReachedEnd, ho, addOptions_eq, updateOptions]
    simp only [hl]
    rw [heq]
    simp [List.append_assoc]

/-- Claim C3: over a run of pages whose last response lacks a continuation
token, listAllNodes returns exactly the in-order concatenation of the page
data, of length the sum of the page lengths, leaving any further oracle
entries untouched; when a request fails after a run of token-carrying
pages, the nodes accumulated from the pages fetched so far are returned
together with the propagated error. -/
theorem c3_listAll_pages :
    (∀ front pages url r c ns extra (o : NodeListOptions),
       TokenPages front pages → o.reachedEnd = false →
       ∃ o', o'.reachedEnd = true ∧
         listAllNodes (front ++ .okResp r ⟨c, none, some ns⟩ :: extra) url (some o) =
           ⟨(pages ++ [ns]).flatten, none, none, some o', extra⟩ ∧
         ((pages ++ [ns]).flatten).length = ((pages ++ [ns]).map List.length).sum) ∧
    (∀ front pages url ro e tail (o : NodeListOptions),
       TokenPages front pages → o.reachedEnd = false →
       ∃ o', listAllNodes (front ++ .doError ro e :: tail) url (some o) =
           ⟨pages.flatten, ro, some e, some o', tail⟩) ∧
    (∀ front pages url e tail (o : NodeListOptions),
       TokenPages front pages → o.reachedEnd = false →
       ∃ o', listAllNodes (front ++ .reqError e :: tail) url (some o) =
           ⟨pages.flatten, none, some e, some o', tail⟩) := by
  refine ⟨fun front pages url r c ns extra o ht ho => ?_,
    fun front pages url ro e tail o ht ho => ?_,
    fun front pages url e tail o ht ho => ?_⟩
  · obtain ⟨o', ho', heq⟩ :=
      listAllLoop_tokenPages ht url (.okResp r ⟨c, none, some ns⟩ :: extra) o [] ho
    refine ⟨{ o' with reachedEnd := true }, rfl, ?_, by simp [List.length_flatten]⟩
    show listAllLoop _ url (some o) [] = _
    rw [heq, listAllLoop_lastPage url r c ns extra o' _ ho']
    simp
  · obtain ⟨o', ho', heq⟩ :=
      listAllLoop_tokenPages ht url (.doError ro e :: tail) o [] ho
    refine ⟨o', ?_⟩
    show listAllLoop _ url (some o) [] = _
    rw [heq, listAllLoop_head_doError url ro e tail o' _ ho']
    simp
  · obtain ⟨o', ho', heq⟩ :=
      listAllLoop_tokenPages ht url (.reqError e :: tail) o [] ho
    refine ⟨o', ?_⟩
    show listAllLoop _ url (some o) [] = _
    rw [heq, listAllLoop_head_reqError url e tail o' _ ho']
    simp

/-- Witness for C3: one token-carrying page followed by a final page, and
the same page followed by a transport failure. -/
theorem c3_listAll_pages_witness :
    (∃ o', o'.reachedEnd = true ∧
       listAllNodes ([.okResp 1 ⟨none, some "t", some [demoFolderA]⟩] ++
           .okResp 2 ⟨none, none, some [demoFolderB]⟩ :: []) "nodes"
           (some NodeListOptions.zero) =
         ⟨([[demoFolderA]] ++ [[demoFolderB]]).flatten, none, none, some o', []⟩ ∧
       (([[demoFolderA]] ++ [[demoFolderB]]).flatten).length =
         (([[demoFolderA]] ++ [[demoFolderB]]).map List.length).sum) ∧
    (∃ o', listAllNodes ([.okResp 1 ⟨none, some "t", some [demoFolderA]⟩] ++
           .doError (some 9) (Err.transport "boom") :: []) "nodes"
           (some NodeListOptions.zero) =
         ⟨[[demoFolderA]].flatten, some 9, some (Err.transport "boom"), some o', []⟩) :=
  ⟨c3_listAll_pages.1 _ _ "nodes" 2 none [demoFolderB] [] _
     (TokenPages.cons 1 none "t" [demoFolderA] [] [] TokenPages.nil) rfl,
   c3_listAll_pages.2.1 _ _ "nodes" (some 9) (Err.transport "boom") [] _
     (TokenPages.cons 1 none "t" [demoFolderA] [] [] TokenPages.nil) rfl⟩

theorem walkLoop_fail (init : List String) :
    ∀ (fp : Folder) (trace : List PageOutcome) (acc : List (Option Nat))
      (last : String) (e : Err),
      (walkLoop fp trace acc init last).error = some e →
      ∃ done pending tr' g,
        done ++ pending = init ∧
        ResolvesTo trace fp done tr' g ∧
        (walkLoop fp trace acc init last).node = g.node ∧
        (walkLoop fp trace acc init last).resps.length = acc.length + done.length + 1 ∧
        ((pending = [] ∧ (g.GetNode tr' last).result = .error e) ∨
         (∃ nm ps, pending = nm :: ps ∧ (g.GetFolder tr' nm).result = .error e)) := by
  induction init with
  | nil =>
    intro fp trace acc last e he
    cases hr : (fp.GetNode trace last).result with
    | error e' =>
      have hwl : walkLoop fp trace acc [] last =
          ⟨fp.node, acc ++ [(fp.GetNode trace last).resp], some e',
            (fp.GetNode trace last).trace⟩ := by
        simp [walkLoop, hr]
      rw [hwl] at he
      obtain rfl : e' = e := by
        have : some e' = some e := he
        exact Option.some.inj this
      refine ⟨[], [], trace, fp, rfl, .nil trace fp, by rw [hwl], by rw [hwl]; simp,
        Or.inl ⟨rfl, hr⟩⟩
    | ok n =>
      have hwl : walkLoop fp trace acc [] last =
          ⟨n, acc ++ [(fp.GetNode trace last).resp], none,
            (fp.GetNode trace last).trace⟩ := by
        simp [walkLoop, hr]
      rw [hwl] at he
      simp at he
  | cons name rest ih =>
    intro fp trace acc last e he
    cases hr : (fp.GetFolder trace name).result with
    | error e' =>
      have hwl : walkLoop fp trace acc (name :: rest) last =
          ⟨fp.node, acc ++ [(fp.GetFolder trace name).resp], some e',
            (fp.GetFolder trace name).trace⟩ := by
        simp [walkLoop, hr]
      rw [hwl] at he
      obtain rfl : e' = e := by
        have : some e' = some e := he
        exact Option.some.inj this
      refine ⟨[], name :: rest, trace, fp, rfl, .nil trace fp, by rw [hwl],
        by rw [hwl]; simp, Or.inr ⟨name, rest, rfl, hr⟩⟩
    | ok fn =>
      have hwl : walkLoop fp trace acc (name :: rest) last =
          walkLoop fn (fp.GetFolder trace name).trace
            (acc ++ [(fp.GetFolder trace name).resp]) rest last := by
        simp [walkLoop, hr]
      rw [hwl] at he
      obtain ⟨done, pending, tr', g, hsplit, hres, hnode, hlen, hfail⟩ :=
        ih fn (fp.GetFolder trace name).trace
          (acc ++ [(fp.GetFolder trace name).resp]) last e he
      refine ⟨name :: done, pending, tr', g, by rw [List.cons_append, hsplit],
        .cons trace fp name done fn tr' g hr hres, by rw [hwl]; exact hnode, ?_, hfail⟩
      rw [hwl, hlen]
      simp
      omega

theorem walkLoop_ok (init : List String) :
    ∀ (fp : Folder) (trace : List PageOutcome) (acc : List (Option Nat))
      (last : String),
      (walkLoop fp trace acc init last).error = none →
      ∃ tr' g,
        ResolvesTo trace fp init tr' g ∧
        (g.GetNode tr' last).result = .ok (walkLoop fp trace acc init last).node ∧
        (walkLoop fp trace acc init last).resps.length = acc.length + init.length + 1 := by
  induction init with
  | nil =>
    intro fp trace acc last he
    cases hr : (fp.GetNode trace last).result with
    | error e' =>
      have hwl : walkLoop fp trace acc [] last =
          ⟨fp.node, acc ++ [(fp.GetNode trace last).resp], some e',
            (fp.GetNode trace last).trace⟩ := by
        simp [walkLoop, hr]
      rw [hwl] at he
      simp at he
    | ok n =>
      have hwl : walkLoop fp trace acc [] last =
          ⟨n, acc ++ [(fp.GetNode trace last).resp], none,
            (fp.GetNode trace last).trace⟩ := by
        simp [walkLoop, hr]
      refine ⟨trace, fp, .nil trace fp, ?_, by rw [hwl]; simp⟩
      rw [hwl]
      exact hr
  | cons name rest ih =>
    intro fp trace acc last he
    cases hr : (fp.GetFolder trace name).result with
    | error e' =>
      have hwl : walkLoop fp trace acc (name :: rest) last =
          ⟨fp.node, acc ++ [(fp.GetFolder trace name).resp], some e',
            (fp.GetFolder trace name).trace⟩ := by
        simp [walkLoop, hr]
      rw [hwl] at he
      simp at he
    | ok fn =>
      have hwl : walkLoop fp trace acc (name :: rest) last =
          walkLoop fn (fp.GetFolder trace name).trace
            (acc ++ [(fp.GetFolder trace name).resp]) rest last := by
        simp [walkLoop, hr]
      rw [hwl] at he
      obtain ⟨tr', g, hres, hok, hlen⟩ :=
        ih fn (fp.GetFolder trace name).trace
          (acc ++ [(fp.GetFolder trace name).resp]) last he
      refine ⟨tr', g, .cons trace fp name rest fn tr' g hr hres, by rw [hwl]; exact hok, ?_⟩
      rw [hwl, hlen]
      simp
      omega

/-- Claim C5: a walk with an empty segment list returns the starting folder
node at once, with no responses and the oracle untouched; a failing walk
returns the node of the last successfully resolved folder (a prefix of the
intermediate segments resolved through GetFolder), one collected response
per attempted step, and the error of the failing call, which is a GetFolder
call on the next intermediate segment or the final GetNode call; a
successful walk resolves every intermediate segment through GetFolder and
the final segment through GetNode, collecting one response per segment. -/
theorem c5_walk (trace : List PageOutcome) (f : Folder) :
    (f.WalkNodes trace [] = ⟨f.node, [], none, trace⟩) ∧
    (∀ ns last e, (f.WalkNodes trace (ns ++ [last])).error = some e →
       ∃ done pending tr' g,
         done ++ pending = ns ∧
         ResolvesTo trace f done tr' g ∧
         (f.WalkNodes trace (ns ++ [last])).node = g.node ∧
         (f.WalkNodes trace (ns ++ [last])).resps.length = done.length + 1 ∧
         ((pending = [] ∧ (g.GetNode tr' last).result = .error e) ∨
          (∃ nm ps, pending = nm :: ps ∧ (g.GetFolder tr' nm).result = .error e))) ∧
    (∀ ns last, (f.WalkNodes trace (ns ++ [last])).error = none →
       ∃ tr' g,
         ResolvesTo trace f ns tr' g ∧
         (g.GetNode tr' last).result = .ok (f.WalkNodes trace (ns ++ [last])).node ∧
         (f.WalkNodes trace (ns ++ [last])).resps.length = ns.length + 1) := by
  have hw : ∀ ns (last : String), f.WalkNodes trace (ns ++ [last]) =
      walkLoop f trace [] ns last := by
    intro ns last
    simp [Folder.WalkNodes, List.getLast?_concat, List.dropLast_concat]
  refine ⟨rfl, fun ns last e he => ?_, fun ns last he => ?_⟩
  · rw [hw] at he
    obtain ⟨done, pending, tr', g, hsplit, hres, hnode, hlen, hfail⟩ :=
      walkLoop_fail ns f trace [] last e he
    exact ⟨done, pending, tr', g, hsplit, hres, by rw [hw]; exact hnode,
      by rw [hw, hlen]; simp, hfail⟩
  · rw [hw] at he
    obtain ⟨tr', g, hres, hok, hlen⟩ := walkLoop_ok ns f trace [] last he
    exact ⟨tr', g, hres, by rw [hw]; exact hok, by rw [hw, hlen]; simp⟩

/-- Witness for C5: walking a, b, missing where a and b resolve as folders
and the final lookup finds nothing fails with the not-found error after
resolving b. -/
theorem c5_walk_witness :
    ∃ done pending tr' g,
      done ++ pending = ["a", "b"] ∧
      ResolvesTo demoWalkTrace demoRoot done tr' g ∧
      (demoRoot.WalkNodes demoWalkTrace (["a", "b"] ++ ["missing"])).node = g.node ∧
      (demoRoot.WalkNodes demoWalkTrace (["a", "b"] ++ ["missing"])).resps.length =
        done.length + 1 ∧
      ((pending = [] ∧
          (g.GetNode tr' "missing").result = .error (Err.noNodeFound "missing")) ∨
       (∃ nm ps, pending = nm :: ps ∧
          (g.GetFolder tr' nm).result = .error (Err.noNodeFound "missing"))) :=
  (c5_walk demoWalkTrace demoRoot).2.1 ["a", "b"] "missing"
    (Err.noNodeFound "missing") (by decide)
